import Mathlib

/-!
# Verification of the session bridge and streaming-reconciliation core

Shallow embedding of the session bridge / orchestration subsystem of the
repository (claude-bridge session manager, permission handler, bridge command
dispatch, UI-side streaming reconciliation).  JavaScript strings are modelled
as `List Char`; JS `Map`s are modelled as association lists with the same
get/set/delete semantics; promise continuations are modelled as explicit
resolution values returned by the state transitions.
-/

set_option maxRecDepth 4000

/-- JavaScript strings, modelled as lists of characters. -/
abbrev Str := List Char

/-- JS `String.prototype.startsWith`. -/
def jsStartsWith (s p : Str) : Bool := p.isPrefixOf s

/-- JS `String.prototype.endsWith`. -/
def jsEndsWith (s p : Str) : Bool := p.isSuffixOf s

/-- The descending overlap search of `mergeStreamingText`
(`for (let length = maxOverlap; length > 0; length -= 1)` in
`mergeStreamingText`): try overlap length `n` first, then `n-1`, …;
if no positive overlap works, append the whole delta. -/
def overlapSearch (existing delta : Str) : Nat → Str
  | 0 => existing ++ delta
  | n + 1 =>
    if jsEndsWith existing (delta.take (n + 1)) then
      existing ++ delta.drop (n + 1)
    else
      overlapSearch existing delta n

/-- `mergeStreamingText` from the thread reducer: fuse a streaming delta into
the existing text by the greatest suffix/prefix overlap. -/
def mergeStreamingText (existing delta : Str) : Str :=
  if delta = [] then existing
  else if existing = [] then delta
  else if delta = existing then existing
  else if jsStartsWith delta existing then delta
  else if jsStartsWith existing delta then existing
  else overlapSearch existing delta (min existing.length delta.length)

example : mergeStreamingText "ab".toList "bc".toList = "abc".toList := by decide
example : mergeStreamingText "xa".toList "ay".toList = "xay".toList := by decide
example : mergeStreamingText "abb".toList "bbx".toList = "abbx".toList := by decide
example : mergeStreamingText "x".toList "x".toList = "x".toList := by decide

/-! ## Lemmas about the overlap search -/

/-- If `delta.take k` is a suffix of `existing` and no longer probed prefix is,
the descending search stops exactly at `k` (with `k = 0` standing for the
final fallback that appends the whole delta). -/
lemma overlapSearch_eq_of_greatest (existing delta : Str) (k : Nat)
    (hk : jsEndsWith existing (delta.take k) = true) :
    ∀ n, k ≤ n →
      (∀ j, k < j → j ≤ n → ¬ (delta.take j <:+ existing)) →
      overlapSearch existing delta n = existing ++ delta.drop k := by
  intro n
  induction n with
  | zero =>
    intro hkn _
    have hk0 : k = 0 := Nat.le_zero.mp hkn
    subst hk0
    simp [overlapSearch]
  | succ m ih =>
    intro hkn hmax
    by_cases hke : k = m + 1
    · subst hke
      simp [overlapSearch, hk]
    · have hklt : k ≤ m := Nat.lt_succ_iff.mp (Nat.lt_of_le_of_ne hkn hke)
      have hfail : ¬ (delta.take (m + 1) <:+ existing) :=
        hmax (m + 1) (Nat.lt_succ_of_le hklt) (le_refl _)
      have hff : jsEndsWith existing (delta.take (m + 1)) = false := by
        simp only [jsEndsWith]
        rw [← Bool.not_eq_true]
        simpa [List.isSuffixOf_iff_suffix] using hfail
      simp only [overlapSearch, hff, Bool.false_eq_true, if_false]
      exact ih hklt (fun j hj hjm => hmax j hj (Nat.le_succ_of_le hjm))

/-- Merging a delta equal to the existing text is the identity. -/
lemma merge_self (a : Str) : mergeStreamingText a a = a := by
  by_cases h : a = []
  · simp [mergeStreamingText, h]
  · simp [mergeStreamingText, h]

/-- A delta extending the existing text replaces it. -/
lemma merge_prefix_extend (a b : Str) : mergeStreamingText a (a ++ b) = a ++ b := by
  rcases eq_or_ne (a ++ b) [] with hab | hab
  · rcases List.append_eq_nil.mp hab with ⟨ha, hb⟩
    simp [mergeStreamingText, ha, hb]
  · by_cases ha : a = []
    · simp [mergeStreamingText, ha, hab]
    · by_cases heq : a ++ b = a
      · have hb : b = [] := by
          have h2 : a ++ b = a ++ [] := by simpa using heq
          exact List.append_cancel_left h2
        simp [mergeStreamingText, hab, ha, heq, hb]
      · have hpre : jsStartsWith (a ++ b) a = true := by
          simp only [jsStartsWith, List.isPrefixOf_iff_prefix]
          exact List.prefix_append a b
        simp [mergeStreamingText, hab, ha, heq, hpre]

/-- The chain law holds when the overlap the search finds is exactly `b`:
neither side is a prefix of the other and no probed prefix of `b ++ c`
longer than `b` is a suffix of `a ++ b`. -/
lemma merge_chain (a b c : Str)
    (h1 : ¬ ((b ++ c) <+: (a ++ b)))
    (h2 : ¬ ((a ++ b) <+: (b ++ c)))
    (h3 : ∀ j, j ≤ (b ++ c).length → b.length < j → ¬ ((b ++ c).take j <:+ (a ++ b))) :
    mergeStreamingText (a ++ b) (b ++ c) = a ++ b ++ c := by
  have hd : ¬ (b ++ c = []) := by
    intro h; exact h1 (by simp [h])
  have he : ¬ (a ++ b = []) := by
    intro h; exact h2 (by simp [h])
  have hne : ¬ (b ++ c = a ++ b) := by
    intro h
    exact h2 (by rw [h])
  have h4 : ¬ (jsStartsWith (b ++ c) (a ++ b) = true) := by
    simpa [jsStartsWith, List.isPrefixOf_iff_prefix] using h2
  have h5 : ¬ (jsStartsWith (a ++ b) (b ++ c) = true) := by
    simpa [jsStartsWith, List.isPrefixOf_iff_prefix] using h1
  rw [mergeStreamingText, if_neg hd, if_neg he, if_neg hne, if_neg h4, if_neg h5]
  have hk : jsEndsWith (a ++ b) ((b ++ c).take b.length) = true := by
    rw [List.take_left b c]
    simp only [jsEndsWith, List.isSuffixOf_iff_suffix]
    exact List.suffix_append a b
  have hle : b.length ≤ min (a ++ b).length (b ++ c).length := by
    refine le_min ?_ ?_ <;> simp
  rw [overlapSearch_eq_of_greatest (a ++ b) (b ++ c) b.length hk _ hle
    (fun j hj hjn => h3 j (le_trans hjn (min_le_right _ _)) hj)]
  rw [List.drop_left b c]

/-- The delta is always a suffix of the overlap-search result. -/
lemma suffix_overlapSearch (t d : Str) : ∀ n, d <:+ overlapSearch t d n := by
  intro n
  induction n with
  | zero => exact List.suffix_append t d
  | succ m ih =>
    by_cases h : jsEndsWith t (d.take (m + 1)) = true
    · simp only [overlapSearch, h, if_true]
      obtain ⟨u, hu⟩ := List.isSuffixOf_iff_suffix.mp h
      refine ⟨u, ?_⟩
      rw [← hu, List.append_assoc, List.take_append_drop]
    · simp only [overlapSearch, h, if_false]
      exact ih

/-- Merging a nonempty delta that is already a suffix of the text is the
identity. -/
lemma merge_of_suffix (r d : Str) (hd : d ≠ []) (hs : d <:+ r) :
    mergeStreamingText r d = r := by
  have hr : ¬ (r = []) := by
    intro h; subst h; exact hd (List.suffix_nil.mp hs)
  by_cases heq : d = r
  · subst heq; exact merge_self d
  · have h4 : ¬ (jsStartsWith d r = true) := by
      simp only [jsStartsWith, List.isPrefixOf_iff_prefix]
      intro hpre
      have hlen : r.length = d.length :=
        le_antisymm (List.IsPrefix.length_le hpre) (List.IsSuffix.length_le hs)
      exact heq (List.IsPrefix.eq_of_length hpre hlen).symm
    by_cases h5 : jsStartsWith r d = true
    · simp [mergeStreamingText, hd, hr, heq, h4, h5]
    · have hlen : d.length ≤ r.length := List.IsSuffix.length_le hs
      have hmin : min r.length d.length = d.length := Nat.min_eq_right hlen
      obtain ⟨m, hm⟩ :=
        Nat.exists_eq_succ_of_ne_zero (fun h0 => hd (List.length_eq_zero.mp h0))
      rw [Nat.succ_eq_add_one] at hm
      have hends : jsEndsWith r (d.take (m + 1)) = true := by
        rw [← hm, List.take_length]
        simp only [jsEndsWith, List.isSuffixOf_iff_suffix]
        exact hs
      rw [mergeStreamingText, if_neg hd, if_neg hr, if_neg heq, if_neg h4, if_neg h5,
        hmin, hm]
      simp only [overlapSearch, hends, if_true]
      rw [← hm, List.drop_length, List.append_nil]

/-- Merging the same delta again immediately after is a no-op. -/
lemma merge_replay (t d : Str) :
    mergeStreamingText (mergeStreamingText t d) d = mergeStreamingText t d := by
  by_cases hd : d = []
  · simp [mergeStreamingText, hd]
  · by_cases ht : t = []
    · have hinner : mergeStreamingText t d = d := by simp [mergeStreamingText, hd, ht]
      rw [hinner]; exact merge_self d
    · by_cases heq : d = t
      · subst heq; rw [merge_self, merge_self]
      · by_cases h4 : jsStartsWith d t = true
        · have hinner : mergeStreamingText t d = d := by
            simp [mergeStreamingText, hd, ht, heq, h4]
          rw [hinner]; exact merge_self d
        · by_cases h5 : jsStartsWith t d = true
          · have hinner : mergeStreamingText t d = t := by
              simp [mergeStreamingText, hd, ht, heq, h4, h5]
            rw [hinner]
            simp [mergeStreamingText, hd, ht, heq, h4, h5]
          · have hinner :
                mergeStreamingText t d = overlapSearch t d (min t.length d.length) := by
              simp [mergeStreamingText, hd, ht, heq, h4, h5]
            rw [hinner]
            exact merge_of_suffix _ d hd (suffix_overlapSearch t d _)

/-- Folding the overlap-merge over a list of deltas, as the reducer does for
successive `appendAgentDelta` actions. -/
def foldMerge (init : Str) (ds : List Str) : Str := ds.foldl mergeStreamingText init

example : foldMerge [] [['x','a'], ['a','y'], ['z']] = ['x','a','y','z'] := by decide
example : foldMerge ['x','a','y','z'] [['x','a'], ['a','y'], ['z']]
    = ['x','a','y','z','a','y','z'] := by decide

/-- Claim C2, counterexample: the chain law `merge(a+b, b+c) = a+b+c` fails as
stated, at `a = "ab"`, `b = "b"`, `c = "bx"`: the greedy search finds the
two-character overlap `"bb"` instead of `b`, giving `"abbx"` rather than
`"abbbx"`. -/
theorem C2_counterexample :
    mergeStreamingText (['a','b'] ++ ['b']) (['b'] ++ ['b','x'])
      ≠ ['a','b'] ++ ['b'] ++ ['b','x'] := by decide

/-- Claim C2 (amended): `merge(a, a) = a` and `merge(a, a + b) = a + b` hold
unconditionally; `merge(a + b, b + c) = a + b + c` holds provided neither of
`a + b`, `b + c` is a prefix of the other and no prefix of `b + c` longer than
`b` is a suffix of `a + b` (i.e. `b` is the overlap the search finds). -/
theorem C2_overlap_merge_laws :
    (∀ a : Str, mergeStreamingText a a = a) ∧
    (∀ a b : Str, mergeStreamingText a (a ++ b) = a ++ b) ∧
    (∀ a b c : Str,
      ¬ ((b ++ c) <+: (a ++ b)) →
      ¬ ((a ++ b) <+: (b ++ c)) →
      (∀ j, j ≤ (b ++ c).length → b.length < j → ¬ ((b ++ c).take j <:+ (a ++ b))) →
      mergeStreamingText (a ++ b) (b ++ c) = a ++ b ++ c) :=
  ⟨merge_self, merge_prefix_extend, merge_chain⟩

/-- Claim C2, witness: the amended chain law applied at `a = "a"`, `b = "b"`,
`c = "c"`. -/
theorem C2_overlap_merge_laws_witness :
    mergeStreamingText (['a'] ++ ['b']) (['b'] ++ ['c']) = ['a'] ++ ['b'] ++ ['c'] :=
  C2_overlap_merge_laws.2.2 ['a'] ['b'] ['c'] (by decide) (by decide) (by decide)

/-- Claim C3, counterexample: replaying the delta sequence
`["xa", "ay", "z"]` on top of its own fold result `"xayz"` yields
`"xayzayz"`, not `"xayz"`: the replayed `"ay"` is an interior substring of
the accumulated text with no suffix overlap, so it is appended again. -/
theorem C3_fold_replay_counterexample :
    foldMerge (foldMerge [] [['x','a'], ['a','y'], ['z']]) [['x','a'], ['a','y'], ['z']]
      ≠ foldMerge [] [['x','a'], ['a','y'], ['z']] := by decide

/-- Claim C3 (amended): re-delivering the most recent delta is idempotent:
for every text `t` and delta `d`, merging `d` a second time immediately after
merging it leaves the text unchanged. Whole-sequence replay is not idempotent
in general (see the counterexample). -/
theorem C3_duplicate_delta_idempotent (t d : Str) :
    mergeStreamingText (mergeStreamingText t d) d = mergeStreamingText t d :=
  merge_replay t d

/-! ## Streaming-text normalization (`normalizeStreamingText` in `useThreads.ts`) -/

/-- The backtick character (code 96), written by code point. -/
def backtickChar : Char := Char.ofNat 96

/-- JS regex `\s` on the characters relevant here (ASCII whitespace plus
NBSP). -/
def jsSpaceChar (c : Char) : Bool :=
  c == ' ' || c == '\t' || c == '\n' || c == '\r' || c == '\x0b' || c == '\x0c' ||
    c == '\u00a0'

/-- The lookahead `[-*]\s`: the text after the newline starts a list
bullet. -/
def isBulletAhead : Str → Bool
  | c :: d :: _ => (c == '-' || c == '*') && jsSpaceChar d
  | _ => false

/-- The lookahead `\d+\.\s`: one or more digits, a dot, then whitespace. -/
def isOrderedAhead (l : Str) : Bool :=
  let ds := l.takeWhile Char.isDigit
  match l.drop ds.length with
  | '.' :: s :: _ => !ds.isEmpty && jsSpaceChar s
  | _ => false

/-- The lookahead for a code-fence marker: three backticks follow. -/
def isFenceAhead : Str → Bool
  | a :: b :: c :: _ => a == backtickChar && b == backtickChar && c == backtickChar
  | _ => false

/-- Whether the list starts with a newline. -/
def startsWithNewline : Str → Bool
  | '\n' :: _ => true
  | _ => false

/-- The negative-lookahead disjunction of the collapse regex: the character
after the matched newline starts another newline, a list bullet, an
ordered-list marker, or a code-fence marker. -/
def blockedAhead (l : Str) : Bool :=
  startsWithNewline l || isBulletAhead l || isOrderedAhead l || isFenceAhead l

/-- JS `text.replace(/\r\n/g, "\n")`: left-to-right, non-overlapping. -/
def crlfToLf : Str → Str
  | [] => []
  | '\r' :: '\n' :: rest => '\n' :: crlfToLf rest
  | c :: rest => c :: crlfToLf rest

/-- The collapse regex `([^\n])\n(?!\n)(?![-*]\s)(?!\d+\.\s)` with the
code-fence lookahead, replaced by `"$1 "`: scan left to right; a match
consumes the non-newline character and the newline and emits the character
and a space. -/
def collapseNewlines : Str → Str
  | [] => []
  | [c] => [c]
  | c :: '\n' :: rest =>
    if c != '\n' && !blockedAhead rest then
      c :: ' ' :: collapseNewlines rest
    else
      c :: collapseNewlines ('\n' :: rest)
  | c :: c2 :: rest => c :: collapseNewlines (c2 :: rest)

/-- `normalizeStreamingText` from `useThreads.ts`: empty in, empty out;
otherwise unify CRLF to LF and collapse single newlines. -/
def normalizeStreamingText (text : Str) : Str :=
  if text = [] then [] else collapseNewlines (crlfToLf text)

example : normalizeStreamingText ['a', '\n', 'b'] = ['a', ' ', 'b'] := by decide
example : normalizeStreamingText ['a', '\r', '\n', 'b'] = ['a', ' ', 'b'] := by decide
example : normalizeStreamingText ['a', '\n', '\n', 'b'] = ['a', '\n', '\n', 'b'] := by
  decide
example : normalizeStreamingText ['a', '\n', '-', ' ', 'x'] = ['a', '\n', '-', ' ', 'x'] := by
  decide
example : normalizeStreamingText ['\n', 'a'] = ['\n', 'a'] := by decide

/-- Whether the character before the current scan position exists and is not a
newline (the `([^\n])` part of the collapse regex, phrased as a
previous-character condition). -/
def prevIsNonNewline : Option Char → Bool
  | some p => p != '\n'
  | none => false

/-- Modelled from the spec (amended): character-by-character restatement of
the collapse rule. Walking the unified text with the previous character in
hand, a newline is replaced by a single space exactly when the previous
character exists and is not a newline and the following text does not start
with another newline, a list bullet, an ordered-list marker, or a code-fence
marker; every other character is kept. -/
def specCollapse : Option Char → Str → Str
  | _, [] => []
  | prev, c :: rest =>
    if c == '\n' && prevIsNonNewline prev && !blockedAhead rest then
      ' ' :: specCollapse (some c) rest
    else
      c :: specCollapse (some c) rest

/-- Modelled from the spec (amended): CRLF unification followed by the
previous-character collapse rule, starting with no previous character. -/
def specNormalize (text : Str) : Str :=
  if text = [] then [] else specCollapse none (crlfToLf text)

/-- Pushing a leading newline through the collapse: the regex never replaces
a newline with nothing before it. -/
lemma collapseNewlines_cons_newline (rest : Str) :
    collapseNewlines ('\n' :: rest) = '\n' :: collapseNewlines rest := by
  match rest with
  | [] => rfl
  | '\n' :: rest2 => simp [collapseNewlines]
  | c2 :: rest2 =>
    by_cases h : c2 = '\n'
    · subst h; simp [collapseNewlines]
    · simp [collapseNewlines, h]

/-- Unfolding: the collapse regex does not fire when the stated condition is
false. -/
lemma specCollapse_cons_keep (prev : Option Char) (c : Char) (rest : Str)
    (h : (c == '\n' && prevIsNonNewline prev && !blockedAhead rest) = false) :
    specCollapse prev (c :: rest) = c :: specCollapse (some c) rest := by
  rw [specCollapse, if_neg]
  simp [h]

/-- Unfolding: the collapse regex fires when the stated condition is true. -/
lemma specCollapse_cons_replace (prev : Option Char) (c : Char) (rest : Str)
    (h : (c == '\n' && prevIsNonNewline prev && !blockedAhead rest) = true) :
    specCollapse prev (c :: rest) = ' ' :: specCollapse (some c) rest := by
  rw [specCollapse, if_pos h]

/-- Unfolding: the regex scan replaces a matched pair. -/
lemma collapseNewlines_pair_replace (c : Char) (rest : Str)
    (hc : c ≠ '\n') (hb : blockedAhead rest = false) :
    collapseNewlines (c :: '\n' :: rest) = c :: ' ' :: collapseNewlines rest := by
  simp [collapseNewlines, hc, hb]

/-- Unfolding: the regex scan skips a blocked pair. -/
lemma collapseNewlines_pair_keep (c : Char) (rest : Str)
    (h : (c != '\n' && !blockedAhead rest) = false) :
    collapseNewlines (c :: '\n' :: rest) = c :: collapseNewlines ('\n' :: rest) := by
  rw [collapseNewlines, if_neg]
  simp [h]

/-- Unfolding: the regex scan advances over a character not followed by a
newline. -/
lemma collapseNewlines_cons_ne (c c2 : Char) (rest : Str) (h2 : c2 ≠ '\n') :
    collapseNewlines (c :: c2 :: rest) = c :: collapseNewlines (c2 :: rest) := by
  simp [collapseNewlines, h2]

/-- The previous-character restatement agrees with the regex-scan collapse,
provided the previous character cannot wrongly enable a replacement at the
head of the remaining text. -/
lemma specCollapse_eq_aux :
    ∀ n (s : Str), s.length ≤ n → ∀ prev : Option Char,
      (∀ r, s = '\n' :: r → (prevIsNonNewline prev = false ∨ blockedAhead r = true)) →
      specCollapse prev s = collapseNewlines s := by
  intro n
  induction n with
  | zero =>
    intro s hs prev _
    have hnil : s = [] := List.eq_nil_of_length_eq_zero (Nat.le_zero.mp hs)
    subst hnil; rfl
  | succ m ih =>
    intro s hs prev hinv
    rcases s with _ | ⟨c, s'⟩
    · rfl
    · rcases s' with _ | ⟨c2, rest⟩
      · by_cases hc : c = '\n'
        · subst hc
          have h0 : prevIsNonNewline prev = false := by
            rcases hinv [] rfl with h | h
            · exact h
            · exact absurd h (by decide)
          rw [specCollapse_cons_keep _ _ _ (by simp [h0])]
          rfl
        · rw [specCollapse_cons_keep _ _ _ (by simp [hc])]
          rfl
      · have hr2 : rest.length + 1 ≤ m := by simpa using hs
        have hr1 : rest.length ≤ m := le_trans (Nat.le_succ _) hr2
        by_cases h2 : c2 = '\n'
        · subst h2
          by_cases hc : c = '\n'
          · subst hc
            have hb : blockedAhead ('\n' :: rest) = true := by
              simp [blockedAhead, startsWithNewline]
            rw [specCollapse_cons_keep _ _ _ (by simp [hb]),
              collapseNewlines_cons_newline]
            congr 1
            rw [collapseNewlines_cons_newline,
              specCollapse_cons_keep _ _ _ (by simp [prevIsNonNewline])]
            congr 1
            exact ih rest hr1 (some '\n') (fun r _ => Or.inl (by decide))
          · by_cases hbt : blockedAhead rest = true
            · rw [specCollapse_cons_keep _ _ _ (by simp [hc]),
                specCollapse_cons_keep _ _ _ (by simp [hbt]),
                collapseNewlines_pair_keep _ _ (by simp [hbt]),
                collapseNewlines_cons_newline]
              congr 2
              exact ih rest hr1 (some '\n') (fun r _ => Or.inl (by decide))
            · have hbf : blockedAhead rest = false := by
                simpa using hbt
              rw [specCollapse_cons_keep _ _ _ (by simp [hc]),
                specCollapse_cons_replace _ _ _
                  (by simp [prevIsNonNewline, hc, hbf]),
                collapseNewlines_pair_replace _ _ hc hbf]
              congr 2
              exact ih rest hr1 (some '\n') (fun r _ => Or.inl (by decide))
        · have hih : specCollapse (some c) (c2 :: rest) = collapseNewlines (c2 :: rest) :=
            ih (c2 :: rest) (by simpa using hr2) (some c)
              (fun r hr => absurd (List.cons.inj hr).1 h2)
          have hcondf :
              (c == '\n' && prevIsNonNewline prev && !blockedAhead (c2 :: rest)) = false := by
            by_cases hc : c = '\n'
            · subst hc
              rcases hinv (c2 :: rest) rfl with hp | hp
              · simp [hp]
              · simp [hp]
            · simp [hc]
          rw [specCollapse_cons_keep _ _ _ hcondf, collapseNewlines_cons_ne _ _ _ h2, hih]

/-- Claim C8, counterexample: on the text `"\nab\n⟨fence⟩\ncd\nef\n⟨fence⟩"`
(where `⟨fence⟩` is three backticks), the claim predicts the leading newline
is collapsed to a space (it is single and not followed by any exception) and
the newlines inside the fenced block are left untouched; the code does the
opposite: the leading newline has no preceding character so the regex cannot
match it, and the newlines inside the fence body are collapsed unless they
directly precede a fence marker. -/
theorem C8_counterexample :
    normalizeStreamingText
      ['\n', 'a', 'b', '\n', backtickChar, backtickChar, backtickChar, '\n',
        'c', 'd', '\n', 'e', 'f', '\n', backtickChar, backtickChar, backtickChar]
      ≠ [' ', 'a', 'b', '\n', backtickChar, backtickChar, backtickChar, '\n',
        'c', 'd', '\n', 'e', 'f', '\n', backtickChar, backtickChar, backtickChar] := by
  decide

/-- Claim C8 (amended): ingest normalization first converts every CRLF pair to
LF, then replaces with a single space exactly those newlines that are preceded
by a non-newline character and not followed by another newline, a list bullet,
an ordered-list marker, or a code-fence marker; the guard protects only a
newline directly before one of those lookaheads (in particular fence interiors
are not otherwise protected, and a newline at the start of the text is always
kept). Stated as equality with the character-by-character restatement
`specNormalize` of that rule. -/
theorem C8_normalize_characterization :
    ∀ text : Str, normalizeStreamingText text = specNormalize text := by
  intro text
  by_cases h : text = []
  · simp [normalizeStreamingText, specNormalize, h]
  · simp only [normalizeStreamingText, specNormalize, if_neg h]
    exact (specCollapse_eq_aux (crlfToLf text).length (crlfToLf text) le_rfl none
      (fun r _ => Or.inl rfl)).symm

/-! ## JS `Map` as an association list -/

/-- JS `Map.get`. -/
def mapGet {V : Type} : List (Str × V) → Str → Option V
  | [], _ => none
  | (k', v) :: rest, k => if k' = k then some v else mapGet rest k

/-- JS `Map.set` (insert or replace). -/
def mapSet {V : Type} : List (Str × V) → Str → V → List (Str × V)
  | [], k, v => [(k, v)]
  | (k', v') :: rest, k, v =>
    if k' = k then (k, v) :: rest else (k', v') :: mapSet rest k v

/-- JS `Map.delete` (a JS map holds each key at most once). -/
def mapDelete {V : Type} : List (Str × V) → Str → List (Str × V)
  | [], _ => []
  | (k', v') :: rest, k =>
    if k' = k then mapDelete rest k else (k', v') :: mapDelete rest k

lemma mapGet_mapSet_self {V : Type} (m : List (Str × V)) (k : Str) (v : V) :
    mapGet (mapSet m k v) k = some v := by
  induction m with
  | nil => simp [mapSet, mapGet]
  | cons e rest ih =>
    rcases e with ⟨k', v'⟩
    by_cases h : k' = k
    · simp [mapSet, mapGet, h]
    · simp [mapSet, mapGet, h, ih]

lemma mapGet_mapSet_ne {V : Type} (m : List (Str × V)) (k k' : Str) (v : V)
    (h : k' ≠ k) : mapGet (mapSet m k v) k' = mapGet m k' := by
  induction m with
  | nil => simp [mapSet, mapGet, Ne.symm h]
  | cons e rest ih =>
    rcases e with ⟨k0, v0⟩
    by_cases h0 : k0 = k
    · subst h0
      simp [mapSet, mapGet, Ne.symm h]
    · simp only [mapSet, if_neg h0]
      by_cases h1 : k0 = k'
      · simp [mapGet, h1]
      · simp [mapGet, h1, ih]

lemma mapGet_mapDelete_self {V : Type} (m : List (Str × V)) (k : Str) :
    mapGet (mapDelete m k) k = none := by
  induction m with
  | nil => simp [mapDelete, mapGet]
  | cons e rest ih =>
    rcases e with ⟨k', v'⟩
    by_cases h : k' = k
    · simp [mapDelete, h, ih]
    · simp [mapDelete, mapGet, h, ih]

lemma mapGet_mapDelete_ne {V : Type} (m : List (Str × V)) (k k' : Str)
    (h : k' ≠ k) : mapGet (mapDelete m k) k' = mapGet m k' := by
  induction m with
  | nil => simp [mapDelete]
  | cons e rest ih =>
    rcases e with ⟨k0, v0⟩
    by_cases h0 : k0 = k
    · subst h0
      simp [mapDelete, mapGet, Ne.symm h, ih]
    · simp [mapDelete, mapGet, h0, ih]

/-- A key is absent exactly when `mapGet` returns `none`. -/
lemma mapGet_eq_none_iff {V : Type} (m : List (Str × V)) (k : Str) :
    mapGet m k = none ↔ k ∉ m.map Prod.fst := by
  induction m with
  | nil => simp [mapGet]
  | cons e rest ih =>
    rcases e with ⟨k', v'⟩
    by_cases h : k' = k
    · subst h
      rw [mapGet, if_pos rfl]
      simp only [List.map_cons, List.mem_cons]
      constructor
      · intro hsome
        exact Option.noConfusion hsome
      · intro hn
        exact (hn (Or.inl trivial)).elim
    · rw [mapGet, if_neg h, ih]
      simp only [List.map_cons, List.mem_cons, not_or]
      constructor
      · intro hn
        exact ⟨Ne.symm h, hn⟩
      · intro hn
        exact hn.2

/-! ## SessionManager (`session-manager.ts`) -/

/-- Session lifecycle status (`SessionState.status`). -/
inductive SessStatus
  | starting
  | active
  | closing
  | closed
deriving DecidableEq, Repr

/-- The per-session state kept in `SessionManager.sessions`. Fields with no
bearing on the verified claims (cwd, `createdAt`, the vendor `query` handle,
the input-stream closures) are elided; the `query` handle is non-null for
every entry that remains in the table after a successful start. -/
structure Sess where
  sessionId : Str
  workspaceId : Str
  status : SessStatus
deriving DecidableEq, Repr

/-- The two maps owned by `SessionManager`. -/
structure MgrState where
  sessions : List (Str × Sess)
  workspaceToSession : List (Str × Str)
deriving DecidableEq, Repr

/-- Errors thrown by the session manager (abstracting the `Error` message
strings of the source). -/
inductive MgrError
  | workspaceBusy
  | sessionNotFound
  | sessionNotActive
  | alreadyActive
deriving DecidableEq, Repr

/-- The `pending-` prefix of locally minted session IDs. -/
def pendingPrefix : Str := ['p', 'e', 'n', 'd', 'i', 'n', 'g', '-']

/-- The busy check at the top of `SessionManager.startSession`: the workspace
index holds a session ID whose table entry has status `active`. -/
def startBusy (st : MgrState) (workspaceId : Str) : Bool :=
  match mapGet st.workspaceToSession workspaceId with
  | none => false
  | some existingSessionId =>
    match mapGet st.sessions existingSessionId with
    | none => false
    | some existing => decide (existing.status = SessStatus.active)

/-- `SessionManager.startSession`: reject when busy, otherwise mint a pending
ID `pending-<ts>`, insert the `starting` entry and return the pending ID. The
vendor `query(...)` call is external; its synchronous success is assumed (the
catch path removes the entry again and rethrows). The workspace index is not
touched. -/
def startSession (st : MgrState) (workspaceId ts : Str) :
    Except MgrError (Str × MgrState) :=
  if startBusy st workspaceId then
    Except.error MgrError.workspaceBusy
  else
    let tempSessionId := pendingPrefix ++ ts
    Except.ok (tempSessionId,
      { st with
        sessions := mapSet st.sessions tempSessionId
          ⟨tempSessionId, workspaceId, SessStatus.starting⟩ })

/-- `SessionManager.resumeSession`: reject when the same session ID is
already active; otherwise insert a `starting` entry under the resumed ID and
point the workspace index at it. -/
def resumeSession (st : MgrState) (workspaceId sessionId : Str) :
    Except MgrError MgrState :=
  let isActive :=
    match mapGet st.sessions sessionId with
    | some existing => decide (existing.status = SessStatus.active)
    | none => false
  if isActive then
    Except.error MgrError.alreadyActive
  else
    Except.ok
      { st with
        sessions := mapSet st.sessions sessionId
          ⟨sessionId, workspaceId, SessStatus.starting⟩,
        workspaceToSession := mapSet st.workspaceToSession workspaceId sessionId }

/-- Result of one `SessionManager.handleMessage` step. -/
structure HandleMessageResult where
  state : MgrState
  sessState : Sess
  routeId : Str
deriving DecidableEq, Repr

/-- One step of `SessionManager.handleMessage`, restricted to its
state-moving parts: the route ID `msg.session_id ?? sessionState.sessionId`,
the pending-ID promotion (delete the old key, re-insert the shared
`sessionState` object under the vendor key, repoint the workspace index) and
the `system/init` activation (mutating the shared object, which the table
sees only while it still holds that entry). -/
def handleMessage (st : MgrState) (sessState : Sess) (workspaceId : Str)
    (msgSessionId : Option Str) (isInit : Bool) : HandleMessageResult :=
  let routeId := msgSessionId.getD sessState.sessionId
  let promoted :=
    match msgSessionId with
    | some v =>
      if jsStartsWith sessState.sessionId pendingPrefix then
        let s' := { sessState with sessionId := v }
        ({ st with
            sessions := mapSet (mapDelete st.sessions sessState.sessionId) v s',
            workspaceToSession := mapSet st.workspaceToSession workspaceId v },
          s')
      else (st, sessState)
    | none => (st, sessState)
  if isInit then
    let s2 := { promoted.2 with status := SessStatus.active }
    { state :=
        { promoted.1 with
          sessions :=
            match mapGet promoted.1.sessions s2.sessionId with
            | some _ => mapSet promoted.1.sessions s2.sessionId s2
            | none => promoted.1.sessions },
      sessState := s2,
      routeId := routeId }
  else
    { state := promoted.1, sessState := promoted.2, routeId := routeId }

/-- `SessionManager.closeSession`: a no-op on an unknown ID; otherwise remove
the entry and drop the workspace index entry when it points at this
session. -/
def closeSession (st : MgrState) (sessionId : Str) : MgrState :=
  match mapGet st.sessions sessionId with
  | none => st
  | some session =>
    let st1 := { st with sessions := mapDelete st.sessions sessionId }
    if mapGet st.workspaceToSession session.workspaceId = some sessionId then
      { st1 with
        workspaceToSession := mapDelete st1.workspaceToSession session.workspaceId }
    else st1

/-- `SessionManager.sendMessage` (guards only; the push itself always
succeeds once the guards pass). -/
def sendMessage (st : MgrState) (sessionId : Str) : Except MgrError Unit :=
  match mapGet st.sessions sessionId with
  | none => Except.error MgrError.sessionNotFound
  | some session =>
    if session.status = SessStatus.active ∨ session.status = SessStatus.starting then
      Except.ok ()
    else
      Except.error MgrError.sessionNotActive

/-- `SessionManager.interrupt` (guards only; the vendor interrupt is
external, and `query` is non-null for table entries). -/
def interrupt (st : MgrState) (sessionId : Str) : Except MgrError Unit :=
  match mapGet st.sessions sessionId with
  | none => Except.error MgrError.sessionNotFound
  | some _ => Except.ok ()

/-- Sessions of a workspace in a non-terminal (`starting` or `active`)
status. -/
def nonTerminalCount (st : MgrState) (w : Str) : Nat :=
  (st.sessions.filter (fun e =>
    decide (e.2.workspaceId = w ∧
      (e.2.status = SessStatus.starting ∨ e.2.status = SessStatus.active)))).length

/-- The busy check fires exactly when the workspace index points at a live
entry with status `active`. -/
lemma startBusy_iff (st : MgrState) (w : Str) :
    startBusy st w = true ↔
      ∃ sid s, mapGet st.workspaceToSession w = some sid ∧
        mapGet st.sessions sid = some s ∧ s.status = SessStatus.active := by
  unfold startBusy
  cases hws : mapGet st.workspaceToSession w with
  | none => simp
  | some sid =>
    cases hses : mapGet st.sessions sid with
    | none => simp [hses]
    | some sess => simp [hses]

/-- Claim C1, counterexample: from the empty manager, a second
`startSession` for the same workspace is accepted while the first session is
still `starting` (the busy check consults only the workspace index, which
`startSession` never writes, and only rejects status `active`); afterwards
the workspace has two sessions in a non-terminal status. -/
theorem C1_counterexample :
    startSession ⟨[], []⟩ ['w'] ['1']
      = Except.ok (pendingPrefix ++ ['1'],
          ⟨[(pendingPrefix ++ ['1'],
              ⟨pendingPrefix ++ ['1'], ['w'], SessStatus.starting⟩)], []⟩) ∧
    startSession
      ⟨[(pendingPrefix ++ ['1'],
          ⟨pendingPrefix ++ ['1'], ['w'], SessStatus.starting⟩)], []⟩
      ['w'] ['2']
      = Except.ok (pendingPrefix ++ ['2'],
          ⟨[(pendingPrefix ++ ['1'],
              ⟨pendingPrefix ++ ['1'], ['w'], SessStatus.starting⟩),
            (pendingPrefix ++ ['2'],
              ⟨pendingPrefix ++ ['2'], ['w'], SessStatus.starting⟩)], []⟩) ∧
    nonTerminalCount
      ⟨[(pendingPrefix ++ ['1'],
          ⟨pendingPrefix ++ ['1'], ['w'], SessStatus.starting⟩),
        (pendingPrefix ++ ['2'],
          ⟨pendingPrefix ++ ['2'], ['w'], SessStatus.starting⟩)], []⟩
      ['w'] = 2 :=
  ⟨rfl, rfl, rfl⟩

/-- Claim C1 (amended): `startSession` rejects with `WorkspaceBusy` exactly
when the workspace index maps the workspace to a table entry whose status is
`Active`. A session still in `Starting` does not block a second start (and a
fresh start never writes the index), so at most one non-terminal session per
workspace is not guaranteed. -/
theorem C1_start_rejects_iff_indexed_active (st : MgrState) (w ts : Str) :
    startSession st w ts = Except.error MgrError.workspaceBusy ↔
      ∃ sid s, mapGet st.workspaceToSession w = some sid ∧
        mapGet st.sessions sid = some s ∧ s.status = SessStatus.active := by
  rw [← startBusy_iff st w]
  unfold startSession
  by_cases hb : startBusy st w = true
  · simp [hb]
  · simp [hb]

/-- Claim C7: once a session holds a pending ID and a message arrives with a
vendor-assigned session ID (one not of pending form), the promotion happens
and can never happen again: the loop's session object and every event routed
for this message carry the vendor ID, the stale pending key is gone from the
session table, the workspace index points at the vendor ID, and any
subsequent `handleMessage` step leaves the session ID unchanged. -/
theorem C7_pending_promotion (st : MgrState) (s : Sess) (w v : Str) (isInit : Bool)
    (hpend : jsStartsWith s.sessionId pendingPrefix = true)
    (hv : jsStartsWith v pendingPrefix = false) :
    ((handleMessage st s w (some v) isInit).sessState.sessionId = v) ∧
    ((handleMessage st s w (some v) isInit).routeId = v) ∧
    (mapGet (handleMessage st s w (some v) isInit).state.sessions s.sessionId
      = none) ∧
    (mapGet (handleMessage st s w (some v) isInit).state.workspaceToSession w
      = some v) ∧
    (∀ (st2 : MgrState) (v2 : Option Str) (init2 : Bool),
      (handleMessage st2 (handleMessage st s w (some v) isInit).sessState w v2
          init2).sessState.sessionId = v) := by
  have hne : s.sessionId ≠ v := by
    intro h
    rw [h, hv] at hpend
    exact Bool.noConfusion hpend
  have hSess :
      (handleMessage st s w (some v) isInit).sessState =
        { s with sessionId := v, status :=
            if isInit then SessStatus.active else s.status } := by
    cases isInit <;> simp [handleMessage, hpend]
  have hId : (handleMessage st s w (some v) isInit).sessState.sessionId = v := by
    rw [hSess]
  refine ⟨hId, ?_, ?_, ?_, ?_⟩
  · cases isInit <;> simp [handleMessage, hpend]
  · cases isInit <;>
      simp [handleMessage, hpend, mapGet_mapSet_self, mapGet_mapSet_ne _ _ _ _ hne,
        mapGet_mapDelete_self]
  · cases isInit <;> simp [handleMessage, hpend, mapGet_mapSet_self]
  · intro st2 v2 init2
    rw [hSess]
    have hs3 : jsStartsWith v pendingPrefix = false := hv
    cases v2 with
    | none =>
      cases init2 <;> simp [handleMessage]
    | some v2' =>
      cases init2 <;> simp [handleMessage, hs3]

/-- Claim C7, witness: promotion of the concrete pending session
`pending-1` to vendor ID `S` in a one-session manager. -/
theorem C7_pending_promotion_witness :
    ((handleMessage
        ⟨[(pendingPrefix ++ ['1'],
            ⟨pendingPrefix ++ ['1'], ['w'], SessStatus.starting⟩)], []⟩
        ⟨pendingPrefix ++ ['1'], ['w'], SessStatus.starting⟩
        ['w'] (some ['S']) true).sessState.sessionId = ['S']) ∧
      ((handleMessage
        ⟨[(pendingPrefix ++ ['1'],
            ⟨pendingPrefix ++ ['1'], ['w'], SessStatus.starting⟩)], []⟩
        ⟨pendingPrefix ++ ['1'], ['w'], SessStatus.starting⟩
        ['w'] (some ['S']) true).routeId = ['S']) ∧
      (mapGet (handleMessage
        ⟨[(pendingPrefix ++ ['1'],
            ⟨pendingPrefix ++ ['1'], ['w'], SessStatus.starting⟩)], []⟩
        ⟨pendingPrefix ++ ['1'], ['w'], SessStatus.starting⟩
        ['w'] (some ['S']) true).state.sessions
        (⟨pendingPrefix ++ ['1'], ['w'], SessStatus.starting⟩ : Sess).sessionId
        = none) ∧
      (mapGet (handleMessage
        ⟨[(pendingPrefix ++ ['1'],
            ⟨pendingPrefix ++ ['1'], ['w'], SessStatus.starting⟩)], []⟩
        ⟨pendingPrefix ++ ['1'], ['w'], SessStatus.starting⟩
        ['w'] (some ['S']) true).state.workspaceToSession ['w'] = some ['S']) ∧
      (∀ (st2 : MgrState) (v2 : Option Str) (init2 : Bool),
        (handleMessage st2 (handleMessage
          ⟨[(pendingPrefix ++ ['1'],
              ⟨pendingPrefix ++ ['1'], ['w'], SessStatus.starting⟩)], []⟩
          ⟨pendingPrefix ++ ['1'], ['w'], SessStatus.starting⟩
          ['w'] (some ['S']) true).sessState ['w'] v2
            init2).sessState.sessionId = ['S']) :=
  C7_pending_promotion
    ⟨[(pendingPrefix ++ ['1'],
        ⟨pendingPrefix ++ ['1'], ['w'], SessStatus.starting⟩)], []⟩
    ⟨pendingPrefix ++ ['1'], ['w'], SessStatus.starting⟩
    ['w'] ['S'] true (by decide) (by decide)

/-! ## PermissionHandler (`permission-handler.ts`) -/

/-- A UI decision (`"allow" | "deny"`). -/
inductive Decision
  | allow
  | deny
deriving DecidableEq, Repr

/-- A pending permission entry (`PendingPermission`; the continuation and the
timer handle are modelled separately as resolutions and the armed-timer
set). -/
structure PendingPermission where
  toolUseId : Str
  sessionId : Str
  workspaceId : Str
deriving DecidableEq, Repr

/-- A `PermissionResult` returned to the vendor through `resolve`. -/
inductive PermissionResult
  | allowResult (updatedPermissions : Option (List Str)) (toolUseId : Str)
  | denyResult (message : Str) (toolUseId : Str)
deriving DecidableEq, Repr

/-- The error a continuation is rejected with. -/
inductive PermReject
  | aborted
  | sessionClosed
  | shuttingDown
deriving DecidableEq, Repr

/-- An invocation of a pending entry's continuation. -/
inductive Resolution
  | resolve (r : PermissionResult)
  | reject (e : PermReject)
deriving DecidableEq, Repr

/-- The handler's mutable state: the pending table plus the set of armed
(not yet fired, not yet cleared) timeout timers, one per tool-use ID. -/
structure PermState where
  pending : List (Str × PendingPermission)
  timers : List Str
deriving DecidableEq, Repr

/-- `"Permission request timed out"`. -/
def timeoutMessage : Str := ("Permission request timed out").toList

/-- `"Permission denied by user"`. -/
def defaultDenyMessage : Str := ("Permission denied by user").toList

/-- `clearTimeout`. -/
def clearTimer (timers : List Str) (id : Str) : List Str :=
  timers.filter (fun t => decide (t ≠ id))

/-- The promise-executor part of `PermissionHandler.createCallback`: store the
pending entry and arm its timer. -/
def registerPending (ps : PermState) (toolUseId sessionId workspaceId : Str) :
    PermState :=
  { pending := mapSet ps.pending toolUseId ⟨toolUseId, sessionId, workspaceId⟩,
    timers := toolUseId :: ps.timers }

/-- The outcome of `PermissionHandler.respond`. -/
structure RespondOutcome where
  success : Bool
  state : PermState
  resolution : Option Resolution
deriving DecidableEq, Repr

/-- `PermissionHandler.respond`: unknown ID → log and return `false`;
otherwise clear the timer, remove the entry and resolve the continuation with
the mapped decision. -/
def respond (ps : PermState) (toolUseId : Str) (decision : Decision)
    (message : Option Str) (updatedPermissions : Option (List Str)) :
    RespondOutcome :=
  match mapGet ps.pending toolUseId with
  | none => ⟨false, ps, none⟩
  | some _ =>
    let ps' : PermState :=
      ⟨mapDelete ps.pending toolUseId, clearTimer ps.timers toolUseId⟩
    match decision with
    | Decision.allow =>
      ⟨true, ps',
        some (Resolution.resolve
          (PermissionResult.allowResult updatedPermissions toolUseId))⟩
    | Decision.deny =>
      ⟨true, ps',
        some (Resolution.resolve
          (PermissionResult.denyResult (message.getD defaultDenyMessage)
            toolUseId))⟩

/-- The `setTimeout` callback: it runs only while its timer is armed; if the
entry is still pending it is removed and auto-denied with the fixed
message. -/
def timeoutFire (ps : PermState) (toolUseId : Str) :
    PermState × Option Resolution :=
  if toolUseId ∈ ps.timers then
    let ts' := clearTimer ps.timers toolUseId
    match mapGet ps.pending toolUseId with
    | some _ =>
      (⟨mapDelete ps.pending toolUseId, ts'⟩,
        some (Resolution.resolve
          (PermissionResult.denyResult timeoutMessage toolUseId)))
    | none => (⟨ps.pending, ts'⟩, none)
  else (ps, none)

/-- The abort-signal listener: if the entry is still pending, clear the
timer, remove the entry and reject. -/
def abortFire (ps : PermState) (toolUseId : Str) :
    PermState × Option Resolution :=
  match mapGet ps.pending toolUseId with
  | some _ =>
    (⟨mapDelete ps.pending toolUseId, clearTimer ps.timers toolUseId⟩,
      some (Resolution.reject PermReject.aborted))
  | none => (ps, none)

/-- One pass of `cancelForSession`'s loop over the table: keep entries of
other sessions, collect the keys of this session's entries. -/
def removeSession (m : List (Str × PendingPermission)) (sessionId : Str) :
    List (Str × PendingPermission) × List Str :=
  match m with
  | [] => ([], [])
  | (t, p) :: rest =>
    let (kept, removed) := removeSession rest sessionId
    if p.sessionId = sessionId then (kept, t :: removed)
    else ((t, p) :: kept, removed)

/-- `PermissionHandler.cancelForSession`: clear each matching entry's timer,
reject it with `SessionClosed` and remove it. -/
def cancelForSession (ps : PermState) (sessionId : Str) :
    PermState × List (Str × Resolution) :=
  (⟨(removeSession ps.pending sessionId).1,
      (removeSession ps.pending sessionId).2.foldl clearTimer ps.timers⟩,
    (removeSession ps.pending sessionId).2.map
      (fun t => (t, Resolution.reject PermReject.sessionClosed)))

/-- `PermissionHandler.cancelAll`: reject every pending entry. -/
def cancelAll (ps : PermState) : PermState × List (Str × Resolution) :=
  (⟨[], (ps.pending.map Prod.fst).foldl clearTimer ps.timers⟩,
    ps.pending.map (fun e => (e.1, Resolution.reject PermReject.shuttingDown)))

/-- The events that can touch the pending table. -/
inductive PermEvent
  | request (toolUseId sessionId workspaceId : Str)
  | respondEv (toolUseId : Str) (decision : Decision) (message : Option Str)
      (updatedPermissions : Option (List Str))
  | timeout (toolUseId : Str)
  | abortSignal (toolUseId : Str)
  | cancelSession (sessionId : Str)
  | shutdown
deriving DecidableEq, Repr

/-- Apply one event; return the new state and the continuation invocations it
causes, tagged with their tool-use IDs. -/
def permStep (ps : PermState) : PermEvent → PermState × List (Str × Resolution)
  | PermEvent.request t sess w => (registerPending ps t sess w, [])
  | PermEvent.respondEv t d m u =>
    ((respond ps t d m u).state,
      match (respond ps t d m u).resolution with
      | some r => [(t, r)]
      | none => [])
  | PermEvent.timeout t =>
    ((timeoutFire ps t).1,
      match (timeoutFire ps t).2 with
      | some x => [(t, x)]
      | none => [])
  | PermEvent.abortSignal t =>
    ((abortFire ps t).1,
      match (abortFire ps t).2 with
      | some x => [(t, x)]
      | none => [])
  | PermEvent.cancelSession sess => cancelForSession ps sess
  | PermEvent.shutdown => cancelAll ps

/-- Run a list of events, accumulating all continuation invocations. -/
def permRun (ps : PermState) : List PermEvent → PermState × List (Str × Resolution)
  | [] => (ps, [])
  | ev :: evs =>
    ((permRun (permStep ps ev).1 evs).1,
      (permStep ps ev).2 ++ (permRun (permStep ps ev).1 evs).2)

/-- An event leaves a given pending entry (keyed `id`, owned by session
`sid`) alone: it is not a respond, timeout, abort or re-registration for that
ID, not a cancellation of that session and not the global shutdown. -/
def untouchedBy (ev : PermEvent) (id sid : Str) : Prop :=
  match ev with
  | PermEvent.request t _ _ => t ≠ id
  | PermEvent.respondEv t _ _ _ => t ≠ id
  | PermEvent.timeout t => t ≠ id
  | PermEvent.abortSignal t => t ≠ id
  | PermEvent.cancelSession sess => sess ≠ sid
  | PermEvent.shutdown => False

/-- Keys of an association list are distinct (always true of a JS `Map`). -/
def nodupKeys {V : Type} (m : List (Str × V)) : Prop := (m.map Prod.fst).Nodup

lemma mem_clearTimer_iff (ts : List Str) (id x : Str) :
    x ∈ clearTimer ts id ↔ x ∈ ts ∧ x ≠ id := by
  simp [clearTimer]

lemma mapSet_cons_eq {V : Type} (k : Str) (v0 v : V) (rest : List (Str × V)) :
    mapSet ((k, v0) :: rest) k v = (k, v) :: rest := by
  simp [mapSet]

lemma mapSet_cons_ne {V : Type} (k0 k : Str) (v0 v : V) (rest : List (Str × V))
    (h : k0 ≠ k) : mapSet ((k0, v0) :: rest) k v = (k0, v0) :: mapSet rest k v := by
  simp [mapSet, h]

lemma mapDelete_cons_eq {V : Type} (k : Str) (v0 : V) (rest : List (Str × V)) :
    mapDelete ((k, v0) :: rest) k = mapDelete rest k := by
  simp [mapDelete]

lemma mapDelete_cons_ne {V : Type} (k0 k : Str) (v0 : V) (rest : List (Str × V))
    (h : k0 ≠ k) : mapDelete ((k0, v0) :: rest) k = (k0, v0) :: mapDelete rest k := by
  simp [mapDelete, h]

lemma mem_keys_mapSet_sub {V : Type} (m : List (Str × V)) (k : Str) (v : V) :
    ∀ x, x ∈ (mapSet m k v).map Prod.fst → x ∈ m.map Prod.fst ∨ x = k := by
  induction m with
  | nil =>
    intro x hx
    simp only [mapSet, List.map_cons, List.map_nil, List.mem_singleton] at hx
    exact Or.inr hx
  | cons e rest ih =>
    rcases e with ⟨k0, v0⟩
    intro x hx
    by_cases hk : k0 = k
    · subst hk
      rw [mapSet_cons_eq] at hx
      simp only [List.map_cons, List.mem_cons] at hx
      rcases hx with hx | hx
      · exact Or.inr hx
      · exact Or.inl (List.mem_cons_of_mem _ hx)
    · rw [mapSet_cons_ne _ _ _ _ _ hk] at hx
      simp only [List.map_cons, List.mem_cons] at hx
      rcases hx with hx | hx
      · exact Or.inl (List.mem_cons.mpr (Or.inl hx))
      · rcases ih x hx with hx' | hx'
        · exact Or.inl (List.mem_cons_of_mem _ hx')
        · exact Or.inr hx'

lemma mem_keys_mapDelete_sub {V : Type} (m : List (Str × V)) (k : Str) :
    ∀ x, x ∈ (mapDelete m k).map Prod.fst → x ∈ m.map Prod.fst := by
  induction m with
  | nil =>
    intro x hx
    simp [mapDelete] at hx
  | cons e rest ih =>
    rcases e with ⟨k0, v0⟩
    intro x hx
    by_cases hk : k0 = k
    · rw [hk, mapDelete_cons_eq] at hx
      exact List.mem_cons_of_mem _ (ih x hx)
    · rw [mapDelete_cons_ne _ _ _ _ hk] at hx
      simp only [List.map_cons, List.mem_cons] at hx
      rcases hx with hx | hx
      · exact List.mem_cons.mpr (Or.inl hx)
      · exact List.mem_cons_of_mem _ (ih x hx)

lemma nodupKeys_mapSet {V : Type} (m : List (Str × V)) (k : Str) (v : V)
    (h : nodupKeys m) : nodupKeys (mapSet m k v) := by
  induction m with
  | nil =>
    simp only [mapSet, nodupKeys, List.map_cons, List.map_nil]
    exact List.nodup_singleton k
  | cons e rest ih =>
    rcases e with ⟨k0, v0⟩
    rcases List.nodup_cons.mp h with ⟨h1, h2⟩
    by_cases hk : k0 = k
    · subst hk
      rw [mapSet_cons_eq]
      simp only [nodupKeys, List.map_cons, List.nodup_cons]
      exact ⟨h1, h2⟩
    · rw [mapSet_cons_ne _ _ _ _ _ hk]
      simp only [nodupKeys, List.map_cons, List.nodup_cons]
      refine ⟨?_, ih h2⟩
      intro hmem
      rcases mem_keys_mapSet_sub rest k v k0 hmem with hx | hx
      · exact h1 hx
      · exact hk hx

lemma nodupKeys_mapDelete {V : Type} (m : List (Str × V)) (k : Str)
    (h : nodupKeys m) : nodupKeys (mapDelete m k) := by
  induction m with
  | nil =>
    simp only [mapDelete, nodupKeys, List.map_nil]
    exact List.nodup_nil
  | cons e rest ih =>
    rcases e with ⟨k0, v0⟩
    rcases List.nodup_cons.mp h with ⟨h1, h2⟩
    by_cases hk : k0 = k
    · rw [hk, mapDelete_cons_eq]
      exact ih h2
    · rw [mapDelete_cons_ne _ _ _ _ hk]
      simp only [nodupKeys, List.map_cons, List.nodup_cons]
      refine ⟨?_, ih h2⟩
      intro hmem
      exact h1 (mem_keys_mapDelete_sub rest k k0 hmem)

lemma mem_removeSession_removed (m : List (Str × PendingPermission)) (s : Str) :
    ∀ x, x ∈ (removeSession m s).2 → x ∈ m.map Prod.fst := by
  induction m with
  | nil =>
    intro x hx
    simp [removeSession] at hx
  | cons e rest ih =>
    rcases e with ⟨t, p⟩
    intro x hx
    simp only [removeSession] at hx
    by_cases hp : p.sessionId = s
    · rw [if_pos hp] at hx
      rcases List.mem_cons.mp hx with hx | hx
      · exact List.mem_cons.mpr (Or.inl hx)
      · exact List.mem_cons_of_mem _ (ih x hx)
    · rw [if_neg hp] at hx
      exact List.mem_cons_of_mem _ (ih x hx)

lemma mem_keys_removeSession_kept (m : List (Str × PendingPermission)) (s : Str) :
    ∀ x, x ∈ (removeSession m s).1.map Prod.fst → x ∈ m.map Prod.fst := by
  induction m with
  | nil =>
    intro x hx
    simp [removeSession] at hx
  | cons e rest ih =>
    rcases e with ⟨t, p⟩
    intro x hx
    simp only [removeSession] at hx
    by_cases hp : p.sessionId = s
    · rw [if_pos hp] at hx
      exact List.mem_cons_of_mem _ (ih x hx)
    · rw [if_neg hp] at hx
      simp only [List.map_cons, List.mem_cons] at hx
      rcases hx with hx | hx
      · exact List.mem_cons.mpr (Or.inl hx)
      · exact List.mem_cons_of_mem _ (ih x hx)

lemma nodupKeys_removeSession (m : List (Str × PendingPermission)) (s : Str)
    (h : nodupKeys m) : nodupKeys (removeSession m s).1 := by
  induction m with
  | nil =>
    simp [removeSession, nodupKeys]
  | cons e rest ih =>
    rcases e with ⟨t, p⟩
    rcases List.nodup_cons.mp h with ⟨h1, h2⟩
    simp only [removeSession]
    by_cases hp : p.sessionId = s
    · rw [if_pos hp]
      exact ih h2
    · rw [if_neg hp]
      simp only [nodupKeys, List.map_cons, List.nodup_cons]
      refine ⟨?_, ih h2⟩
      intro hmem
      exact h1 (mem_keys_removeSession_kept rest s t hmem)

/-- An entry of a different session survives `removeSession` and its key is
not among the removed keys. -/
lemma removeSession_spec (m : List (Str × PendingPermission)) (s id : Str)
    (e : PendingPermission) (hget : mapGet m id = some e)
    (hs : e.sessionId ≠ s) (hn : nodupKeys m) :
    mapGet (removeSession m s).1 id = some e ∧ id ∉ (removeSession m s).2 := by
  induction m with
  | nil => exact Option.noConfusion hget
  | cons hd rest ih =>
    rcases hd with ⟨t, p⟩
    rcases List.nodup_cons.mp hn with ⟨h1, h2⟩
    by_cases ht : t = id
    · subst ht
      rw [mapGet, if_pos rfl] at hget
      have hpe : p = e := Option.some.inj hget
      subst hpe
      simp only [removeSession]
      rw [if_neg hs]
      constructor
      · rw [mapGet, if_pos rfl]
      · intro hmem
        exact h1 (mem_removeSession_removed rest s t hmem)
    · rw [mapGet, if_neg ht] at hget
      rcases ih hget h2 with ⟨ih1, ih2⟩
      simp only [removeSession]
      by_cases hp : p.sessionId = s
      · rw [if_pos hp]
        refine ⟨ih1, ?_⟩
        intro hmem
        rcases List.mem_cons.mp hmem with hx | hx
        · exact ht hx.symm
        · exact ih2 hx
      · rw [if_neg hp]
        refine ⟨?_, ih2⟩
        rw [mapGet, if_neg ht]
        exact ih1

lemma mem_foldl_clearTimer (rs : List Str) :
    ∀ (ts : List Str) (id : Str), id ∈ ts → id ∉ rs →
      id ∈ rs.foldl clearTimer ts := by
  induction rs with
  | nil =>
    intro ts id h1 _
    exact h1
  | cons r rs' ih =>
    intro ts id h1 h2
    simp only [List.foldl_cons]
    refine ih (clearTimer ts r) id ?_ (fun hx => h2 (List.mem_cons_of_mem _ hx))
    exact (mem_clearTimer_iff ts r id).mpr
      ⟨h1, fun hid => h2 (hid ▸ List.mem_cons_self _ _)⟩

/-- One event that leaves a pending entry alone preserves the entry, its
armed timer, key distinctness, and produces no continuation invocation for
it. -/
lemma permStep_untouched (ps : PermState) (ev : PermEvent) (id : Str)
    (e : PendingPermission)
    (h1 : mapGet ps.pending id = some e) (h2 : id ∈ ps.timers)
    (h3 : nodupKeys ps.pending) (hev : untouchedBy ev id e.sessionId) :
    mapGet (permStep ps ev).1.pending id = some e ∧
      id ∈ (permStep ps ev).1.timers ∧
      nodupKeys (permStep ps ev).1.pending ∧
      (permStep ps ev).2.filter (fun p => decide (p.1 = id)) = [] := by
  cases ev with
  | request t sess w =>
    replace hev : t ≠ id := hev
    refine ⟨?_, ?_, ?_, rfl⟩
    · simp only [permStep, registerPending]
      rw [mapGet_mapSet_ne _ _ _ _ (Ne.symm hev)]
      exact h1
    · simp only [permStep, registerPending]
      exact List.mem_cons_of_mem _ h2
    · simp only [permStep, registerPending]
      exact nodupKeys_mapSet _ _ _ h3
  | respondEv t d m u =>
    replace hev : t ≠ id := hev
    cases hget : mapGet ps.pending t with
    | none =>
      simp only [permStep, respond, hget]
      exact ⟨h1, h2, h3, rfl⟩
    | some p =>
      cases d <;>
        (simp only [permStep, respond, hget]
         refine ⟨?_, ?_, ?_, ?_⟩
         · rw [mapGet_mapDelete_ne _ _ _ (Ne.symm hev)]
           exact h1
         · exact (mem_clearTimer_iff _ _ _).mpr ⟨h2, Ne.symm hev⟩
         · exact nodupKeys_mapDelete _ _ h3
         · simp [hev])
  | timeout t =>
    replace hev : t ≠ id := hev
    by_cases htm : t ∈ ps.timers
    · cases hget : mapGet ps.pending t with
      | none =>
        simp only [permStep, timeoutFire, if_pos htm, hget]
        exact ⟨h1, (mem_clearTimer_iff _ _ _).mpr ⟨h2, Ne.symm hev⟩, h3, rfl⟩
      | some p =>
        simp only [permStep, timeoutFire, if_pos htm, hget]
        refine ⟨?_, ?_, ?_, ?_⟩
        · rw [mapGet_mapDelete_ne _ _ _ (Ne.symm hev)]
          exact h1
        · exact (mem_clearTimer_iff _ _ _).mpr ⟨h2, Ne.symm hev⟩
        · exact nodupKeys_mapDelete _ _ h3
        · simp [hev]
    · simp only [permStep, timeoutFire, if_neg htm]
      exact ⟨h1, h2, h3, rfl⟩
  | abortSignal t =>
    replace hev : t ≠ id := hev
    cases hget : mapGet ps.pending t with
    | none =>
      simp only [permStep, abortFire, hget]
      exact ⟨h1, h2, h3, rfl⟩
    | some p =>
      simp only [permStep, abortFire, hget]
      refine ⟨?_, ?_, ?_, ?_⟩
      · rw [mapGet_mapDelete_ne _ _ _ (Ne.symm hev)]
        exact h1
      · exact (mem_clearTimer_iff _ _ _).mpr ⟨h2, Ne.symm hev⟩
      · exact nodupKeys_mapDelete _ _ h3
      · simp [hev]
  | cancelSession sess =>
    replace hev : sess ≠ e.sessionId := hev
    obtain ⟨hk1, hk2⟩ :=
      removeSession_spec ps.pending sess id e h1 (Ne.symm hev) h3
    simp only [permStep, cancelForSession]
    refine ⟨hk1, mem_foldl_clearTimer _ _ _ h2 hk2,
      nodupKeys_removeSession _ _ h3, ?_⟩
    rw [List.filter_eq_nil_iff]
    intro a ha
    obtain ⟨t, htmem, rfl⟩ := List.mem_map.mp ha
    simp only [decide_eq_true_eq]
    intro hta
    exact hk2 (hta ▸ htmem)
  | shutdown => exact hev.elim

/-- An event that is not a re-registration of the given ID keeps an absent
entry absent and produces no continuation invocation for it. -/
lemma permStep_absent (ps : PermState) (ev : PermEvent) (id : Str)
    (h1 : mapGet ps.pending id = none)
    (hev : ∀ sess w, ev ≠ PermEvent.request id sess w) :
    mapGet (permStep ps ev).1.pending id = none ∧
      (permStep ps ev).2.filter (fun p => decide (p.1 = id)) = [] := by
  cases ev with
  | request t sess w =>
    have ht : t ≠ id := by
      intro h
      exact hev sess w (by rw [h])
    refine ⟨?_, rfl⟩
    simp only [permStep, registerPending]
    rw [mapGet_mapSet_ne _ _ _ _ (Ne.symm ht)]
    exact h1
  | respondEv t d m u =>
    by_cases ht : t = id
    · subst ht
      simp only [permStep, respond, h1]
      exact ⟨trivial, rfl⟩
    · cases hget : mapGet ps.pending t with
      | none =>
        simp only [permStep, respond, hget]
        exact ⟨h1, rfl⟩
      | some p =>
        cases d <;>
          (simp only [permStep, respond, hget]
           refine ⟨?_, ?_⟩
           · rw [mapGet_mapDelete_ne _ _ _ (Ne.symm ht)]
             exact h1
           · simp [ht])
  | timeout t =>
    by_cases htm : t ∈ ps.timers
    · by_cases ht : t = id
      · subst ht
        simp only [permStep, timeoutFire, if_pos htm, h1]
        exact ⟨trivial, rfl⟩
      · cases hget : mapGet ps.pending t with
        | none =>
          simp only [permStep, timeoutFire, if_pos htm, hget]
          exact ⟨h1, rfl⟩
        | some p =>
          simp only [permStep, timeoutFire, if_pos htm, hget]
          refine ⟨?_, ?_⟩
          · rw [mapGet_mapDelete_ne _ _ _ (Ne.symm ht)]
            exact h1
          · simp [ht]
    · simp only [permStep, timeoutFire, if_neg htm]
      exact ⟨h1, rfl⟩
  | abortSignal t =>
    by_cases ht : t = id
    · subst ht
      simp only [permStep, abortFire, h1]
      exact ⟨trivial, rfl⟩
    · cases hget : mapGet ps.pending t with
      | none =>
        simp only [permStep, abortFire, hget]
        exact ⟨h1, rfl⟩
      | some p =>
        simp only [permStep, abortFire, hget]
        refine ⟨?_, ?_⟩
        · rw [mapGet_mapDelete_ne _ _ _ (Ne.symm ht)]
          exact h1
        · simp [ht]
  | cancelSession sess =>
    constructor
    · rw [mapGet_eq_none_iff] at h1 ⊢
      intro hmem
      exact h1 (mem_keys_removeSession_kept _ _ _ hmem)
    · rw [List.filter_eq_nil_iff]
      intro a ha
      simp only [permStep, cancelForSession] at ha
      obtain ⟨t, htmem, rfl⟩ := List.mem_map.mp ha
      simp only [decide_eq_true_eq]
      intro hta
      subst hta
      rw [mapGet_eq_none_iff] at h1
      exact h1 (mem_removeSession_removed _ _ _ htmem)
  | shutdown =>
    constructor
    · rfl
    · rw [List.filter_eq_nil_iff]
      intro a ha
      simp only [permStep, cancelAll] at ha
      obtain ⟨p, hpmem, rfl⟩ := List.mem_map.mp ha
      simp only [decide_eq_true_eq]
      intro hta
      rw [mapGet_eq_none_iff] at h1
      exact h1 (hta ▸ List.mem_map_of_mem Prod.fst hpmem)

/-- Running only events that leave the entry alone preserves it and yields no
continuation invocation for it. -/
lemma permRun_untouched (id : Str) (e : PendingPermission) :
    ∀ (evs : List PermEvent) (ps : PermState),
      mapGet ps.pending id = some e →
      id ∈ ps.timers →
      nodupKeys ps.pending →
      (∀ ev ∈ evs, untouchedBy ev id e.sessionId) →
      mapGet (permRun ps evs).1.pending id = some e ∧
        id ∈ (permRun ps evs).1.timers ∧
        nodupKeys (permRun ps evs).1.pending ∧
        (permRun ps evs).2.filter (fun p => decide (p.1 = id)) = [] := by
  intro evs
  induction evs with
  | nil =>
    intro ps h1 h2 h3 _
    exact ⟨h1, h2, h3, rfl⟩
  | cons ev evs ih =>
    intro ps h1 h2 h3 hall
    obtain ⟨s1, s2, s3, s4⟩ :=
      permStep_untouched ps ev id e h1 h2 h3 (hall ev (List.mem_cons_self _ _))
    obtain ⟨r1, r2, r3, r4⟩ :=
      ih (permStep ps ev).1 s1 s2 s3
        (fun e' he' => hall e' (List.mem_cons_of_mem _ he'))
    refine ⟨r1, r2, r3, ?_⟩
    simp only [permRun, List.filter_append, s4, r4, List.nil_append]

/-- Once an entry is gone, events that never re-register its ID keep it gone
and never invoke a continuation for it. -/
lemma permRun_absent (id : Str) :
    ∀ (evs : List PermEvent) (ps : PermState),
      mapGet ps.pending id = none →
      (∀ ev ∈ evs, ∀ sess w, ev ≠ PermEvent.request id sess w) →
      mapGet (permRun ps evs).1.pending id = none ∧
        (permRun ps evs).2.filter (fun p => decide (p.1 = id)) = [] := by
  intro evs
  induction evs with
  | nil =>
    intro ps h1 _
    exact ⟨h1, rfl⟩
  | cons ev evs ih =>
    intro ps h1 hall
    obtain ⟨s1, s2⟩ :=
      permStep_absent ps ev id h1 (hall ev (List.mem_cons_self _ _))
    obtain ⟨r1, r2⟩ :=
      ih (permStep ps ev).1 s1 (fun e' he' => hall e' (List.mem_cons_of_mem _ he'))
    refine ⟨r1, ?_⟩
    simp only [permRun, List.filter_append, s2, r2, List.nil_append]

/-- Splitting a run at an event boundary. -/
lemma permRun_append (xs ys : List PermEvent) :
    ∀ ps : PermState,
      permRun ps (xs ++ ys)
        = ((permRun (permRun ps xs).1 ys).1,
            (permRun ps xs).2 ++ (permRun (permRun ps xs).1 ys).2) := by
  induction xs with
  | nil =>
    intro ps
    simp [permRun]
  | cons x xs ih =>
    intro ps
    simp only [List.cons_append, permRun, List.append_eq, ih, List.append_assoc]

/-- Claim C5: a pending permission that is not responded to, aborted,
cancelled with its session, or caught in a shutdown before its timer fires is
auto-resolved by the timeout exactly once — with `deny` and the message
`"Permission request timed out"` — and its entry leaves the pending table for
good; no other continuation invocation for that ID ever happens in the run. -/
theorem C5_timeout_autodeny (ps0 : PermState) (id : Str) (e : PendingPermission)
    (pre post : List PermEvent)
    (hpend : mapGet ps0.pending id = some e)
    (htimer : id ∈ ps0.timers)
    (hnodup : nodupKeys ps0.pending)
    (hpre : ∀ ev ∈ pre, untouchedBy ev id e.sessionId)
    (hpost : ∀ ev ∈ post, ∀ sess w, ev ≠ PermEvent.request id sess w) :
    (permRun ps0 (pre ++ PermEvent.timeout id :: post)).2.filter
        (fun p => decide (p.1 = id))
      = [(id, Resolution.resolve
          (PermissionResult.denyResult timeoutMessage id))] ∧
    mapGet (permRun ps0 (pre ++ PermEvent.timeout id :: post)).1.pending id
      = none := by
  obtain ⟨p1, p2, p3, p4⟩ := permRun_untouched id e pre ps0 hpend htimer hnodup hpre
  have hnone :
      mapGet (permStep (permRun ps0 pre).1 (PermEvent.timeout id)).1.pending id
        = none := by
    simp only [permStep, timeoutFire, if_pos p2, p1]
    exact mapGet_mapDelete_self _ _
  obtain ⟨habs1, habs2⟩ := permRun_absent id post _ hnone hpost
  constructor
  · rw [permRun_append pre (PermEvent.timeout id :: post) ps0]
    simp only [permRun]
    rw [List.filter_append, p4, List.nil_append, List.filter_append, habs2,
      List.append_nil]
    simp only [permStep, timeoutFire, if_pos p2, p1]
    simp
  · rw [permRun_append pre (PermEvent.timeout id :: post) ps0]
    simp only [permRun]
    exact habs1

/-- Claim C5, witness: a single pending request `T` that times out with no
other event in flight. -/
theorem C5_timeout_autodeny_witness :
    (permRun ⟨[(['T'], ⟨['T'], ['s'], ['w']⟩)], [['T']]⟩
        ([] ++ PermEvent.timeout ['T'] :: [])).2.filter
        (fun p => decide (p.1 = ['T']))
      = [(['T'], Resolution.resolve
          (PermissionResult.denyResult timeoutMessage ['T']))] ∧
    mapGet (permRun ⟨[(['T'], ⟨['T'], ['s'], ['w']⟩)], [['T']]⟩
        ([] ++ PermEvent.timeout ['T'] :: [])).1.pending ['T'] = none :=
  C5_timeout_autodeny ⟨[(['T'], ⟨['T'], ['s'], ['w']⟩)], [['T']]⟩ ['T']
    ⟨['T'], ['s'], ['w']⟩ [] []
    rfl (List.mem_singleton.mpr rfl) (by simp [nodupKeys])
    (fun ev hev => absurd hev (List.not_mem_nil ev))
    (fun ev hev => absurd hev (List.not_mem_nil ev))

/-- Claim C6: `respond` on an unknown tool-use ID returns `false` and changes
nothing (it never throws — the model is a total function); on a pending ID it
returns `true`, removes the entry, clears its timer and resolves the
continuation with `allow`/`updatedPermissions` or with `deny` and the
supplied message defaulted to `"Permission denied by user"`. -/
theorem C6_respond_contract (ps : PermState) (id : Str) (d : Decision)
    (msg : Option Str) (ups : Option (List Str)) :
    (mapGet ps.pending id = none →
      respond ps id d msg ups = ⟨false, ps, none⟩) ∧
    (∀ e, mapGet ps.pending id = some e →
      (respond ps id d msg ups).success = true ∧
      mapGet (respond ps id d msg ups).state.pending id = none ∧
      id ∉ (respond ps id d msg ups).state.timers ∧
      (respond ps id d msg ups).resolution =
        some (Resolution.resolve
          (match d with
          | Decision.allow => PermissionResult.allowResult ups id
          | Decision.deny =>
            PermissionResult.denyResult (msg.getD defaultDenyMessage) id))) := by
  constructor
  · intro hnone
    simp only [respond, hnone]
  · intro e hsome
    cases d <;>
      (simp only [respond, hsome]
       refine ⟨trivial, mapGet_mapDelete_self _ _, ?_, trivial⟩
       intro hmem
       exact ((mem_clearTimer_iff _ _ _).mp hmem).2 rfl)

/-- Claim C6, witness: responding `deny` to the pending ID `T` and responding
to the unknown ID `U`. -/
theorem C6_respond_contract_witness :
    ((respond ⟨[(['T'], ⟨['T'], ['s'], ['w']⟩)], [['T']]⟩ ['T'] Decision.deny
        none none).success = true ∧
      mapGet (respond ⟨[(['T'], ⟨['T'], ['s'], ['w']⟩)], [['T']]⟩ ['T']
          Decision.deny none none).state.pending ['T'] = none ∧
      ['T'] ∉ (respond ⟨[(['T'], ⟨['T'], ['s'], ['w']⟩)], [['T']]⟩ ['T']
          Decision.deny none none).state.timers ∧
      (respond ⟨[(['T'], ⟨['T'], ['s'], ['w']⟩)], [['T']]⟩ ['T'] Decision.deny
          none none).resolution =
        some (Resolution.resolve
          (PermissionResult.denyResult ((none : Option Str).getD defaultDenyMessage)
            ['T']))) ∧
    respond ⟨[(['T'], ⟨['T'], ['s'], ['w']⟩)], [['T']]⟩ ['U'] Decision.deny
        none none
      = ⟨false, ⟨[(['T'], ⟨['T'], ['s'], ['w']⟩)], [['T']]⟩, none⟩ :=
  ⟨(C6_respond_contract ⟨[(['T'], ⟨['T'], ['s'], ['w']⟩)], [['T']]⟩ ['T']
      Decision.deny none none).2 ⟨['T'], ['s'], ['w']⟩ rfl,
    (C6_respond_contract ⟨[(['T'], ⟨['T'], ['s'], ['w']⟩)], [['T']]⟩ ['U']
      Decision.deny none none).1 rfl⟩

/-- The wire parameters of `permission/respond`
(`PermissionRespondParams`). -/
structure PermissionRespondParams where
  sessionId : Str
  toolUseId : Str
  decision : Decision
  message : Option Str
  updatedPermissions : Option (List Str)

/-- `handlePermissionRespond` from the bridge dispatcher: forwards
`toolUseId`, `decision`, `message` and `updatedPermissions` to
`PermissionHandler.respond` and wraps the boolean in `{success}`; the
`sessionId` parameter is never read. -/
def handlePermissionRespond (ps : PermState) (params : PermissionRespondParams) :
    PermState × Bool :=
  ((respond ps params.toolUseId params.decision params.message
      params.updatedPermissions).state,
    (respond ps params.toolUseId params.decision params.message
      params.updatedPermissions).success)

/-- Claim C9: `permission/respond` resolves purely by `toolUseId`: the
outcome is identical for any two `sessionId` values, and a pending
`toolUseId` succeeds whatever `sessionId` is supplied (even one different
from the entry's owning session). -/
theorem C9_respond_ignores_sessionId (ps : PermState) (s1 s2 id : Str)
    (d : Decision) (msg : Option Str) (ups : Option (List Str)) :
    handlePermissionRespond ps ⟨s1, id, d, msg, ups⟩
      = handlePermissionRespond ps ⟨s2, id, d, msg, ups⟩ ∧
    (∀ e, mapGet ps.pending id = some e →
      (handlePermissionRespond ps ⟨s1, id, d, msg, ups⟩).2 = true) := by
  constructor
  · rfl
  · intro e he
    cases d <;> simp [handlePermissionRespond, respond, he]

/-- Claim C9, witness: responding with a mismatched session ID still succeeds
for the pending ID `T` owned by session `s`. -/
theorem C9_respond_ignores_sessionId_witness :
    handlePermissionRespond ⟨[(['T'], ⟨['T'], ['s'], ['w']⟩)], [['T']]⟩
        ⟨['x'], ['T'], Decision.allow, none, none⟩
      = handlePermissionRespond ⟨[(['T'], ⟨['T'], ['s'], ['w']⟩)], [['T']]⟩
        ⟨['y'], ['T'], Decision.allow, none, none⟩ ∧
    (handlePermissionRespond ⟨[(['T'], ⟨['T'], ['s'], ['w']⟩)], [['T']]⟩
        ⟨['x'], ['T'], Decision.allow, none, none⟩).2 = true :=
  ⟨(C9_respond_ignores_sessionId ⟨[(['T'], ⟨['T'], ['s'], ['w']⟩)], [['T']]⟩
      ['x'] ['y'] ['T'] Decision.allow none none).1,
    (C9_respond_ignores_sessionId ⟨[(['T'], ⟨['T'], ['s'], ['w']⟩)], [['T']]⟩
      ['x'] ['y'] ['T'] Decision.allow none none).2 ⟨['T'], ['s'], ['w']⟩ rfl⟩

/-! ## The session input stream (`createInputStream` in `session-manager.ts`) -/

/-- The closure state of `createInputStream`: the FIFO `queue`, the `closed`
flag and whether a consumer is parked in `resolveNext`. -/
structure InputStream (α : Type) where
  queue : List α
  closed : Bool
  waiter : Bool

/-- `push(message)`: discarded after close; otherwise delivered directly to a
parked consumer or appended to the queue. The second component is the message
handed straight to a waiting consumer, if any. -/
def pushStream {α : Type} (s : InputStream α) (m : α) :
    InputStream α × Option α :=
  if s.closed then (s, none)
  else if s.waiter then ({ s with waiter := false }, some m)
  else ({ s with queue := s.queue ++ [m] }, none)

/-- `close()`: set the flag and wake a parked consumer with `done`. The
second component records whether a waiter was woken. -/
def closeStream {α : Type} (s : InputStream α) : InputStream α × Bool :=
  if s.waiter then ({ s with closed := true, waiter := false }, true)
  else ({ s with closed := true }, false)

/-- What one `next()` call observes. -/
inductive NextResult (α : Type)
  | value (m : α)
  | done
  | blocked

/-- The iterator's `next()`: drain the queue first, then report `done` when
closed, otherwise park. -/
def nextStream {α : Type} (s : InputStream α) : InputStream α × NextResult α :=
  match s.queue with
  | m :: rest => ({ s with queue := rest }, NextResult.value m)
  | [] =>
    if s.closed then (s, NextResult.done)
    else ({ s with waiter := true }, NextResult.blocked)

/-- Repeatedly call `next()` (up to `fuel` times), collecting delivered
messages; the boolean reports whether `done` was observed. -/
def drainStream {α : Type} : Nat → InputStream α → List α × Bool
  | 0, _ => ([], false)
  | fuel + 1, s =>
    match nextStream s with
    | (s', NextResult.value m) =>
      ((m :: (drainStream fuel s').1), (drainStream fuel s').2)
    | (_, NextResult.done) => ([], true)
    | (_, NextResult.blocked) => ([], false)

lemma drainStream_closed {α : Type} :
    ∀ (q : List α) (s : InputStream α), s.queue = q → s.closed = true →
      drainStream (q.length + 1) s = (q, true) := by
  intro q
  induction q with
  | nil =>
    intro s hq hc
    simp [drainStream, nextStream, hq, hc]
  | cons m rest ih =>
    intro s hq hc
    have hnext : nextStream s = ({ s with queue := rest }, NextResult.value m) := by
      simp [nextStream, hq]
    have hih := ih { s with queue := rest } rfl hc
    rw [List.length_cons, drainStream, hnext]
    simp [hih]

/-- Claim C10: closing preserves the queued backlog and sets the flag; after
close every push is a no-op (the message is silently discarded and nothing is
delivered); and the iterator still drains the backlog in FIFO order before
reporting `done`. -/
theorem C10_input_stream_close_semantics (α : Type) (s : InputStream α) :
    ((closeStream s).1.queue = s.queue ∧ (closeStream s).1.closed = true) ∧
    (s.closed = true → ∀ m, pushStream s m = (s, none)) ∧
    (s.closed = true → drainStream (s.queue.length + 1) s = (s.queue, true)) := by
  refine ⟨?_, ?_, ?_⟩
  · by_cases hw : s.waiter <;> simp [closeStream, hw]
  · intro hc m
    simp [pushStream, hc]
  · intro hc
    exact drainStream_closed s.queue s rfl hc

/-- Claim C10, witness: a closed stream with backlog `[0, 1]` ignores a push
of `2` and still delivers `0` then `1` before `done`. -/
theorem C10_input_stream_close_semantics_witness :
    ((closeStream (⟨[0, 1], true, false⟩ : InputStream Nat)).1.queue = [0, 1] ∧
      (closeStream (⟨[0, 1], true, false⟩ : InputStream Nat)).1.closed = true) ∧
    (pushStream (⟨[0, 1], true, false⟩ : InputStream Nat) 2
      = (⟨[0, 1], true, false⟩, none)) ∧
    drainStream 3 (⟨[0, 1], true, false⟩ : InputStream Nat) = ([0, 1], true) :=
  ⟨(C10_input_stream_close_semantics Nat ⟨[0, 1], true, false⟩).1,
    (C10_input_stream_close_semantics Nat ⟨[0, 1], true, false⟩).2.1 rfl 2,
    (C10_input_stream_close_semantics Nat ⟨[0, 1], true, false⟩).2.2 rfl⟩

/-! ## Bridge command dispatch (`index.ts`) -/

/-- `SessionManager.listModels`: requires a table entry (whose `query` is
live); the model list itself comes from the vendor. -/
def listModels (st : MgrState) (sessionId : Str) : Except MgrError Unit :=
  match mapGet st.sessions sessionId with
  | none => Except.error MgrError.sessionNotFound
  | some _ => Except.ok ()

/-- `SessionManager.listCommands`: with no session ID, or with an unknown
session, it returns the empty list without consulting the vendor; `none` in
the result stands for the vendor-supplied list of an existing session. -/
def listCommands (st : MgrState) (sessionId : Option Str) :
    Option (List Str) :=
  match sessionId with
  | some sid =>
    match mapGet st.sessions sid with
    | some _ => none
    | none => some []
  | none => some []

/-- Errors surfaced by the dispatcher (abstracting the response `error`
strings). -/
inductive BridgeError
  | notInitialized
  | alreadyInitialized
  | sessionIdRequired
  | mgr (e : MgrError)
deriving DecidableEq, Repr

/-- Successful response payloads. `vendor…` constructors stand for payloads
produced by the vendor query object. -/
inductive BridgeResult
  | capabilities
  | sessionId (s : Str)
  | success (b : Bool)
  | commands (cs : List Str)
  | vendorCommands
  | vendorModels
  | vendorStatus
  | vendorSet
  | vendorRewind
deriving DecidableEq, Repr

/-- The commands of the line protocol, with the parameter fields the
dispatcher reads. -/
inductive BridgeCommand
  | initializeCmd
  | sessionStart (workspaceId ts : Str)
  | sessionResume (workspaceId sessionId : Str)
  | sessionClose (sessionId : Str)
  | messageSend (sessionId : Str)
  | messageInterrupt (sessionId : Str)
  | permissionRespond (params : PermissionRespondParams)
  | modelList (sessionId : Option Str)
  | modelSet (sessionId : Str)
  | commandList (sessionId : Option Str)
  | mcpStatus (sessionId : Str)
  | mcpSet (sessionId : Str)
  | sessionRewind (sessionId : Str)

/-- The bridge process state: the `initialized` flag, the session manager and
the permission handler. -/
structure BridgeState where
  initialized : Bool
  mgr : MgrState
  perms : PermState

/-- `handleCommand` from `index.ts`: the per-method handlers, each with
exactly the guards the source has. Only `session/start`, `session/resume`
and `message/send` check `initialized`. -/
def handleCommand (st : BridgeState) (cmd : BridgeCommand) :
    BridgeState × Except BridgeError BridgeResult :=
  match cmd with
  | BridgeCommand.initializeCmd =>
    if st.initialized then (st, Except.error BridgeError.alreadyInitialized)
    else ({ st with initialized := true }, Except.ok BridgeResult.capabilities)
  | BridgeCommand.sessionStart w ts =>
    if st.initialized = false then (st, Except.error BridgeError.notInitialized)
    else
      match startSession st.mgr w ts with
      | Except.error e => (st, Except.error (BridgeError.mgr e))
      | Except.ok (sid, m') =>
        ({ st with mgr := m' }, Except.ok (BridgeResult.sessionId sid))
  | BridgeCommand.sessionResume w sid =>
    if st.initialized = false then (st, Except.error BridgeError.notInitialized)
    else
      match resumeSession st.mgr w sid with
      | Except.error e => (st, Except.error (BridgeError.mgr e))
      | Except.ok m' =>
        ({ st with mgr := m' }, Except.ok (BridgeResult.success true))
  | BridgeCommand.sessionClose sid =>
    ({ st with mgr := closeSession st.mgr sid },
      Except.ok (BridgeResult.success true))
  | BridgeCommand.messageSend sid =>
    if st.initialized = false then (st, Except.error BridgeError.notInitialized)
    else
      match sendMessage st.mgr sid with
      | Except.error e => (st, Except.error (BridgeError.mgr e))
      | Except.ok _ => (st, Except.ok (BridgeResult.success true))
  | BridgeCommand.messageInterrupt sid =>
    match interrupt st.mgr sid with
    | Except.error e => (st, Except.error (BridgeError.mgr e))
    | Except.ok _ => (st, Except.ok (BridgeResult.success true))
  | BridgeCommand.permissionRespond params =>
    ({ st with perms := (handlePermissionRespond st.perms params).1 },
      Except.ok (BridgeResult.success (handlePermissionRespond st.perms params).2))
  | BridgeCommand.modelList sid? =>
    match sid? with
    | none => (st, Except.error BridgeError.sessionIdRequired)
    | some sid =>
      match listModels st.mgr sid with
      | Except.error e => (st, Except.error (BridgeError.mgr e))
      | Except.ok _ => (st, Except.ok BridgeResult.vendorModels)
  | BridgeCommand.modelSet sid =>
    match mapGet st.mgr.sessions sid with
    | none => (st, Except.error (BridgeError.mgr MgrError.sessionNotFound))
    | some _ => (st, Except.ok (BridgeResult.success true))
  | BridgeCommand.commandList sid? =>
    match listCommands st.mgr sid? with
    | some cs => (st, Except.ok (BridgeResult.commands cs))
    | none => (st, Except.ok BridgeResult.vendorCommands)
  | BridgeCommand.mcpStatus sid =>
    match mapGet st.mgr.sessions sid with
    | none => (st, Except.error (BridgeError.mgr MgrError.sessionNotFound))
    | some _ => (st, Except.ok BridgeResult.vendorStatus)
  | BridgeCommand.mcpSet sid =>
    match mapGet st.mgr.sessions sid with
    | none => (st, Except.error (BridgeError.mgr MgrError.sessionNotFound))
    | some _ => (st, Except.ok BridgeResult.vendorSet)
  | BridgeCommand.sessionRewind sid =>
    match mapGet st.mgr.sessions sid with
    | none => (st, Except.error (BridgeError.mgr MgrError.sessionNotFound))
    | some _ => (st, Except.ok BridgeResult.vendorRewind)

/-- Claim C4, counterexample: on a freshly started (uninitialized) bridge,
`command/list` with no session ID is answered with a SUCCESSFUL response
carrying an empty command list, not an error — the handler has no
initialization guard. (`permission/respond` likewise returns a result,
`{success: false}`.) -/
theorem C4_counterexample :
    (handleCommand ⟨false, ⟨[], []⟩, ⟨[], []⟩⟩
        (BridgeCommand.commandList none)).2
      = Except.ok (BridgeResult.commands []) ∧
    (handleCommand ⟨false, ⟨[], []⟩, ⟨[], []⟩⟩
        (BridgeCommand.permissionRespond
          ⟨['s'], ['T'], Decision.deny, none, none⟩)).2
      = Except.ok (BridgeResult.success false) :=
  ⟨rfl, rfl⟩

/-- Claim C4 (amended): only `session/start`, `session/resume` and
`message/send` check for prior initialization and fail with an error response
when the bridge is uninitialized; `session/close` and the remaining methods
dispatch regardless: `session/close` succeeds, the methods needing a session
fail on session lookup (not on initialization) in the necessarily
session-less uninitialized state, `model/list` without a session ID fails on
its own parameter check, and `command/list` and `permission/respond` complete
successfully. -/
theorem C4_initialization_guards (st : BridgeState) (w ts sid : Str)
    (params : PermissionRespondParams)
    (hinit : st.initialized = false)
    (hsess : st.mgr.sessions = []) :
    (handleCommand st (BridgeCommand.sessionStart w ts)).2
        = Except.error BridgeError.notInitialized ∧
    (handleCommand st (BridgeCommand.sessionResume w sid)).2
        = Except.error BridgeError.notInitialized ∧
    (handleCommand st (BridgeCommand.messageSend sid)).2
        = Except.error BridgeError.notInitialized ∧
    (handleCommand st (BridgeCommand.sessionClose sid)).2
        = Except.ok (BridgeResult.success true) ∧
    (handleCommand st (BridgeCommand.messageInterrupt sid)).2
        = Except.error (BridgeError.mgr MgrError.sessionNotFound) ∧
    (handleCommand st (BridgeCommand.modelList none)).2
        = Except.error BridgeError.sessionIdRequired ∧
    (handleCommand st (BridgeCommand.modelList (some sid))).2
        = Except.error (BridgeError.mgr MgrError.sessionNotFound) ∧
    (handleCommand st (BridgeCommand.modelSet sid)).2
        = Except.error (BridgeError.mgr MgrError.sessionNotFound) ∧
    (handleCommand st (BridgeCommand.mcpStatus sid)).2
        = Except.error (BridgeError.mgr MgrError.sessionNotFound) ∧
    (handleCommand st (BridgeCommand.mcpSet sid)).2
        = Except.error (BridgeError.mgr MgrError.sessionNotFound) ∧
    (handleCommand st (BridgeCommand.sessionRewind sid)).2
        = Except.error (BridgeError.mgr MgrError.sessionNotFound) ∧
    (handleCommand st (BridgeCommand.commandList none)).2
        = Except.ok (BridgeResult.commands []) ∧
    (handleCommand st (BridgeCommand.commandList (some sid))).2
        = Except.ok (BridgeResult.commands []) ∧
    (handleCommand st (BridgeCommand.permissionRespond params)).2
        = Except.ok (BridgeResult.success
            (handlePermissionRespond st.perms params).2) := by
  refine ⟨?_, ?_, ?_, ?_, ?_, ?_, ?_, ?_, ?_, ?_, ?_, ?_, ?_, ?_⟩ <;>
    simp [handleCommand, hinit, hsess, interrupt, listModels, listCommands,
      closeSession, mapGet]

/-- Claim C4, witness: all fourteen dispatch behaviors at the fresh initial
bridge state. -/
theorem C4_initialization_guards_witness :
    (handleCommand ⟨false, ⟨[], []⟩, ⟨[], []⟩⟩
        (BridgeCommand.sessionStart ['w'] ['1'])).2
        = Except.error BridgeError.notInitialized ∧
    (handleCommand ⟨false, ⟨[], []⟩, ⟨[], []⟩⟩
        (BridgeCommand.sessionResume ['w'] ['S'])).2
        = Except.error BridgeError.notInitialized ∧
    (handleCommand ⟨false, ⟨[], []⟩, ⟨[], []⟩⟩
        (BridgeCommand.messageSend ['S'])).2
        = Except.error BridgeError.notInitialized ∧
    (handleCommand ⟨false, ⟨[], []⟩, ⟨[], []⟩⟩
        (BridgeCommand.sessionClose ['S'])).2
        = Except.ok (BridgeResult.success true) ∧
    (handleCommand ⟨false, ⟨[], []⟩, ⟨[], []⟩⟩
        (BridgeCommand.messageInterrupt ['S'])).2
        = Except.error (BridgeError.mgr MgrError.sessionNotFound) ∧
    (handleCommand ⟨false, ⟨[], []⟩, ⟨[], []⟩⟩
        (BridgeCommand.modelList none)).2
        = Except.error BridgeError.sessionIdRequired ∧
    (handleCommand ⟨false, ⟨[], []⟩, ⟨[], []⟩⟩
        (BridgeCommand.modelList (some ['S']))).2
        = Except.error (BridgeError.mgr MgrError.sessionNotFound) ∧
    (handleCommand ⟨false, ⟨[], []⟩, ⟨[], []⟩⟩
        (BridgeCommand.modelSet ['S'])).2
        = Except.error (BridgeError.mgr MgrError.sessionNotFound) ∧
    (handleCommand ⟨false, ⟨[], []⟩, ⟨[], []⟩⟩
        (BridgeCommand.mcpStatus ['S'])).2
        = Except.error (BridgeError.mgr MgrError.sessionNotFound) ∧
    (handleCommand ⟨false, ⟨[], []⟩, ⟨[], []⟩⟩
        (BridgeCommand.mcpSet ['S'])).2
        = Except.error (BridgeError.mgr MgrError.sessionNotFound) ∧
    (handleCommand ⟨false, ⟨[], []⟩, ⟨[], []⟩⟩
        (BridgeCommand.sessionRewind ['S'])).2
        = Except.error (BridgeError.mgr MgrError.sessionNotFound) ∧
    (handleCommand ⟨false, ⟨[], []⟩, ⟨[], []⟩⟩
        (BridgeCommand.commandList none)).2
        = Except.ok (BridgeResult.commands []) ∧
    (handleCommand ⟨false, ⟨[], []⟩, ⟨[], []⟩⟩
        (BridgeCommand.commandList (some ['S']))).2
        = Except.ok (BridgeResult.commands []) ∧
    (handleCommand ⟨false, ⟨[], []⟩, ⟨[], []⟩⟩
        (BridgeCommand.permissionRespond
          ⟨['s'], ['T'], Decision.deny, none, none⟩)).2
        = Except.ok (BridgeResult.success
            (handlePermissionRespond (⟨[], []⟩ : PermState)
              ⟨['s'], ['T'], Decision.deny, none, none⟩).2) :=
  C4_initialization_guards ⟨false, ⟨[], []⟩, ⟨[], []⟩⟩ ['w'] ['1'] ['S']
    ⟨['s'], ['T'], Decision.deny, none, none⟩ rfl rfl
